import Mathlib

/-!
Verification development for the `sensors-oracle` pallet
(`pallets/sensors-oracle/src/lib.rs` and its modular sections
`types.rs`, `events.rs`, `calls.rs`).

The pallet stores sensor readings in a double map keyed by sensor id and
sensor type, gated by a bounded, root-administered list of authorities.
We embed the data model, the per-field string decoders, and the three
dispatchable calls (`update_sensors_data`, `add_authority`,
`remove_authority`) as pure Lean functions over an explicit pallet state,
and prove the specified properties about them.

Conventions of the embedding:
* `u32` / `u64` fields are modelled as `Nat`; the only place where the
  32-bit range matters is `str::parse::<u32>`, where the bound is explicit.
* Storage values are modelled directly: `Authorities` as a `List`, the
  `Sensors` double map as a function to `Option SensorData`.
* Each dispatchable returns the state after the call together with
  `Option DispatchError`.  Every error path of the Rust code returns
  before any storage write, so on error the input state is returned
  unchanged, which also matches the transactional dispatch semantics.
* The account id type and the `MaxAuthorities` constant are parameters,
  mirroring `T::AccountId` and `T::MaxAuthorities`.
-/

namespace SensorsOracle

/-- `pub(super) type SensorIdOf = u32;` (types.rs / lib.rs). -/
abbrev SensorIdOf := Nat

/-- `pub enum SensorType { Humidity = 0, Temperature = 1, Pressure = 2, Digital = 3 }`. -/
inductive SensorType
  | Humidity
  | Temperature
  | Pressure
  | Digital
deriving DecidableEq

/-- `pub struct Geolocation { pub lat: u32, pub lon: u32 }`. -/
structure Geolocation where
  lat : Nat
  lon : Nat
deriving DecidableEq

/-- `pub enum SensorValue { Number(u32), Bool(bool) }`. -/
inductive SensorValue
  | Number (n : Nat)
  | Bool (b : Bool)
deriving DecidableEq

/-- `pub struct SensorData { id, type_, geolocation, value, timestamp }`. -/
structure SensorData where
  id : SensorIdOf
  type_ : SensorType
  geolocation : Geolocation
  value : SensorValue
  timestamp : Nat
deriving DecidableEq

/-- The string form of a `SensorType` produced by the derived serde
`Serialize` implementation: a unit variant serializes as its name. -/
def ser_sensor_type : SensorType → String
  | .Humidity => "Humidity"
  | .Temperature => "Temperature"
  | .Pressure => "Pressure"
  | .Digital => "Digital"

/-- `fn de_string_to_sensor_type` (lib.rs lines 246-258): matches the four
variant names exactly, any other string is the custom serde error
`"Unexpected sensor type"`. -/
def de_string_to_sensor_type (s : String) : Except String SensorType :=
  if s = "Humidity" then .ok .Humidity
  else if s = "Pressure" then .ok .Pressure
  else if s = "Temperature" then .ok .Temperature
  else if s = "Digital" then .ok .Digital
  else .error "Unexpected sensor type"

/-- `str::parse::<u32>`: an optional leading `+`, then one or more ASCII
digits, value within the `u32` range; anything else fails.  Implemented
over the character list of the string. -/
def parse_u32 (s : String) : Option Nat :=
  let cs := if s.data.head? = some '+' then s.data.tail else s.data
  if cs.isEmpty then none
  else if cs.all (fun c => c.isDigit) then
    let n := cs.foldl (fun acc c => acc * 10 + (c.toNat - 48)) 0
    if n < 4294967296 then some n else none
  else none

/-- `fn de_string_to_sensor_value` (lib.rs lines 273-288): `"true"` and
`"false"` map to `Bool`, any other string attempts a `u32` parse, and on
parse failure the code returns `Ok(SensorValue::Number(0))` (the arm is
marked with a TODO in the source, and the final
`Err(custom("Unexpected sensor value"))` arm is unreachable because the
`value` pattern above it matches every string). -/
def de_string_to_sensor_value (s : String) : Except String SensorValue :=
  if s = "true" then .ok (.Bool true)
  else if s = "false" then .ok (.Bool false)
  else
    match parse_u32 s with
    | some x => .ok (.Number x)
    | none => .ok (.Number 0)

/-- `pub enum Event<T>` — union of the variants declared in lib.rs
(`NewPrice`, `AuthorityAdded`, `AuthorityRemoved`) and events.rs
(`AuthorityAdded`, `AuthorityRemoved`, `SensorDataAdded`). -/
inductive Event (A : Type)
  | NewPrice (price : Nat) (maybe_who : Option A)
  | AuthorityAdded (authority : A)
  | AuthorityRemoved (authority : A)
  | SensorDataAdded (id : SensorIdOf) (type_ : SensorType)
deriving DecidableEq

/-- `pub enum Error<T>` (lib.rs lines 333-340). -/
inductive PalletError
  | NotAuthority
  | AlreadyAuthority
  | TooManyAuthorities
  | DeserializeError
  | FailedSignedTransaction
deriving DecidableEq

/-- Dispatch-level errors: `BadOrigin` from the origin checks, or a
pallet `Error` converted via `.into()`. -/
inductive DispatchError
  | BadOrigin
  | Module (e : PalletError)
deriving DecidableEq

/-- The runtime origin of a call: a signed account, root, or none. -/
inductive Origin (A : Type)
  | Signed (who : A)
  | Root
  | NoOrigin
deriving DecidableEq

/-- The pallet storage touched by the calls: the `Authorities` bounded
vector, the `Sensors` double map, and the list of deposited events. -/
structure PalletState (A : Type) where
  authorities : List A
  sensors : SensorIdOf → SensorType → Option SensorData
  events : List (Event A)

/-- `ensure_signed`: succeeds exactly on a signed origin. -/
def ensure_signed {A : Type} : Origin A → Except DispatchError A
  | .Signed who => .ok who
  | _ => .error .BadOrigin

/-- `ensure_root`: succeeds exactly on the root origin. -/
def ensure_root {A : Type} : Origin A → Except DispatchError Unit
  | .Root => .ok ()
  | _ => .error .BadOrigin

/-- `Self::deposit_event(e)`: appends the event. -/
def deposit_event {A : Type} (e : Event A) (s : PalletState A) : PalletState A :=
  { s with events := s.events ++ [e] }

/-- `fn is_authority(who) -> bool { <Authorities<T>>::get().contains(who) }`
(lib.rs lines 445-447). -/
def is_authority {A : Type} [DecidableEq A] (s : PalletState A) (who : A) : Bool :=
  s.authorities.contains who

/-- `fn add_sensor_data(sensor)` (lib.rs lines 518-522):
`<Sensors<T>>::insert(sensor.id, sensor.type_, sensor)` — an
unconditional overwrite of the double-map entry; no event is deposited. -/
def add_sensor_data {A : Type} (sensor : SensorData) (s : PalletState A) : PalletState A :=
  { s with
    sensors := fun i t =>
      if i = sensor.id ∧ t = sensor.type_ then some sensor else s.sensors i t }

/-- `BoundedVec::try_push`: appends if the length is below the bound,
otherwise fails and leaves the vector alone. -/
def try_push {A : Type} (maxAuthorities : Nat) (l : List A) (a : A) :
    Except Unit (List A) :=
  if l.length < maxAuthorities then .ok (l ++ [a]) else .error ()

/-- `Vec::swap_remove(i)`: replaces the element at `i` with the last
element and pops the last element. (The Rust method panics on an
out-of-range index; in the pallet it is only called with an index
returned by `position`, which is always in range.) -/
def swap_remove {A : Type} (l : List A) (i : Nat) : List A :=
  match l.getLast? with
  | none => l
  | some last => (l.set i last).dropLast

/-- `pub fn update_sensors_data(origin, updated_data)` (lib.rs lines
360-378): requires a signed origin; if the signer is an authority every
record of the batch is applied via `add_sensor_data`, otherwise the call
fails with `Error::NotAuthority` before touching storage. -/
def update_sensors_data {A : Type} [DecidableEq A] (origin : Origin A)
    (updated_data : List SensorData) (s : PalletState A) :
    PalletState A × Option DispatchError :=
  match ensure_signed origin with
  | .error e => (s, some e)
  | .ok who =>
    match is_authority s who with
    | true => (updated_data.foldl (fun st sensor => add_sensor_data sensor st) s, none)
    | false => (s, some (.Module .NotAuthority))

/-- `pub fn add_authority(origin, authority)` (lib.rs lines 381-403):
root-only; fails with `AlreadyAuthority` if present, with
`TooManyAuthorities` if `try_push` hits the bound; on success appends the
authority and deposits `AuthorityAdded`. -/
def add_authority {A : Type} [DecidableEq A] (maxAuthorities : Nat)
    (origin : Origin A) (authority : A) (s : PalletState A) :
    PalletState A × Option DispatchError :=
  match ensure_root origin with
  | .error e => (s, some e)
  | .ok _ =>
    if is_authority s authority then (s, some (.Module .AlreadyAuthority))
    else
      match try_push maxAuthorities s.authorities authority with
      | .error _ => (s, some (.Module .TooManyAuthorities))
      | .ok authorities' =>
        (deposit_event (.AuthorityAdded authority) { s with authorities := authorities' }, none)

/-- `pub fn remove_authority(origin, authority)` (lib.rs lines 405-425):
root-only; fails with `NotAuthority` if the authority is absent; on
success removes it with `swap_remove` at the index found by `position`
and deposits `Event::AuthorityAdded` — the source really deposits
`AuthorityAdded` here (lib.rs line 422 and calls.rs), not
`AuthorityRemoved`. -/
def remove_authority {A : Type} [DecidableEq A] (origin : Origin A)
    (authority : A) (s : PalletState A) :
    PalletState A × Option DispatchError :=
  match ensure_root origin with
  | .error e => (s, some e)
  | .ok _ =>
    if is_authority s authority then
      match s.authorities.findIdx? (fun a => a == authority) with
      | some index =>
        (deposit_event (.AuthorityAdded authority)
          { s with authorities := swap_remove s.authorities index }, none)
      | none => (s, some (.Module .NotAuthority))
    else (s, some (.Module .NotAuthority))

/-- The last record of a batch for a given (id, type) key, if any —
the record that "wins" under the in-order application of the batch. -/
def lastFor : List SensorData → SensorIdOf → SensorType → Option SensorData
  | [], _, _ => none
  | r :: rs, i, t =>
    match lastFor rs i t with
    | some x => some x
    | none => if i = r.id ∧ t = r.type_ then some r else none

/-- Applying a batch in order, as `update_sensors_data` does. -/
def applyBatch {A : Type} (b : List SensorData) (s : PalletState A) : PalletState A :=
  b.foldl (fun st sensor => add_sensor_data sensor st) s

/-- The empty sensor store. -/
def emptySensors : SensorIdOf → SensorType → Option SensorData := fun _ _ => none

/-- Genesis state: empty registry, empty store, no events. -/
def emptyState : PalletState Nat := ⟨[], emptySensors, []⟩

/-- A state whose registry holds the single authority `1`. -/
def regOneState : PalletState Nat := ⟨[1], emptySensors, []⟩

/-- A concrete sensor record (id 1, Temperature, value 42). -/
def sampleRecord : SensorData := ⟨1, .Temperature, ⟨10, 20⟩, .Number 42, 1000⟩

/-- A second record for the same (id, type) key with a different value. -/
def sampleRecord2 : SensorData := ⟨1, .Temperature, ⟨10, 20⟩, .Number 7, 2000⟩

instance instDecidableEqExcept {ε α : Type} [DecidableEq ε] [DecidableEq α] :
    DecidableEq (Except ε α) := fun a b =>
  match a, b with
  | .ok x, .ok y => if h : x = y then .isTrue (by rw [h]) else .isFalse (by simp [h])
  | .error x, .error y => if h : x = y then .isTrue (by rw [h]) else .isFalse (by simp [h])
  | .ok _, .error _ => .isFalse (by simp)
  | .error _, .ok _ => .isFalse (by simp)

/-! ### Basic lemmas about the embedding -/

theorem is_authority_iff_mem {A : Type} [DecidableEq A] (s : PalletState A) (who : A) :
    is_authority s who = true ↔ who ∈ s.authorities := by
  unfold is_authority
  exact List.elem_iff

theorem is_authority_eq_false_iff {A : Type} [DecidableEq A] (s : PalletState A) (who : A) :
    is_authority s who = false ↔ who ∉ s.authorities := by
  rw [← Bool.not_eq_true, not_iff_not]
  exact is_authority_iff_mem s who

theorem applyBatch_authorities {A : Type} (b : List SensorData) (s : PalletState A) :
    (applyBatch b s).authorities = s.authorities := by
  induction b generalizing s with
  | nil => rfl
  | cons r rs ih => exact ih (add_sensor_data r s)

theorem applyBatch_events {A : Type} (b : List SensorData) (s : PalletState A) :
    (applyBatch b s).events = s.events := by
  induction b generalizing s with
  | nil => rfl
  | cons r rs ih => exact ih (add_sensor_data r s)

theorem applyBatch_sensors {A : Type} (b : List SensorData) (s : PalletState A)
    (i : SensorIdOf) (t : SensorType) :
    (applyBatch b s).sensors i t =
      match lastFor b i t with
      | some r => some r
      | none => s.sensors i t := by
  induction b generalizing s with
  | nil => rfl
  | cons r rs ih =>
    show (applyBatch rs (add_sensor_data r s)).sensors i t = _
    rw [ih (add_sensor_data r s)]
    show _ = (match (match lastFor rs i t with
      | some x => some x
      | none => if i = r.id ∧ t = r.type_ then some r else none) with
      | some x => some x
      | none => s.sensors i t)
    cases lastFor rs i t with
    | some x => rfl
    | none =>
      show (if i = r.id ∧ t = r.type_ then some r else s.sensors i t) = _
      by_cases h : i = r.id ∧ t = r.type_ <;> simp [h]

theorem update_sensors_data_authorized {A : Type} [DecidableEq A] (who : A)
    (b : List SensorData) (s : PalletState A) (h : is_authority s who = true) :
    update_sensors_data (Origin.Signed who) b s = (applyBatch b s, none) := by
  simp only [update_sensors_data, ensure_signed, h]
  rfl

/-! ### C1: unauthorized batch submission is rejected in full -/

/-- C1. A signed caller who is not in the Authorities registry gets
`Error::NotAuthority` from `update_sensors_data`, whatever the batch, and
the whole pallet state — in particular the sensor store — is returned
unchanged: no record of the batch is applied, not even partially. -/
theorem update_sensors_data_not_authority {A : Type} [DecidableEq A] (who : A)
    (batch : List SensorData) (s : PalletState A)
    (h : is_authority s who = false) :
    update_sensors_data (Origin.Signed who) batch s
      = (s, some (DispatchError.Module PalletError.NotAuthority)) := by
  simp only [update_sensors_data, ensure_signed, h]

/-- Witness for C1 at a concrete input: account `0` is not an authority
of `regOneState`, and its submission of `[sampleRecord]` is rejected. -/
theorem update_sensors_data_not_authority_witness :
    is_authority regOneState 0 = false ∧
    update_sensors_data (Origin.Signed 0) [sampleRecord] regOneState
      = (regOneState, some (DispatchError.Module PalletError.NotAuthority)) :=
  ⟨by decide, update_sensors_data_not_authority 0 [sampleRecord] regOneState (by decide)⟩

/-! ### C2: the value decoder silently defaults to Number(0) -/

/-- C2 (divergence witness). `"abc"` is neither `"true"` nor `"false"`
and does not parse as a `u32`, yet `de_string_to_sensor_value` returns
`Ok(Number(0))` instead of a parse error: the decoder silently coerces
unparseable values to zero (lib.rs line 284, the arm carrying the
`TODO: check later if this should be zero or not` comment). -/
theorem de_string_to_sensor_value_defaults_to_zero :
    "abc" ≠ "true" ∧ "abc" ≠ "false" ∧ parse_u32 "abc" = none ∧
    de_string_to_sensor_value "abc" = Except.ok (SensorValue.Number 0) := by
  refine ⟨by decide, by decide, by decide, by decide⟩

/-! ### C6: SensorType round-trips through its string encoding -/

/-- C6. Encoding any of the four `SensorType` variants to its string name
and decoding it back yields the original variant; decoding any string
other than the four kind names — `"Foo"` for instance — fails with the
decoder's unknown-sensor-type error (`custom("Unexpected sensor type")`,
the spec's `UnknownSensorKind`); and a successful decode only ever
happens on the exact encoded name of the returned kind, so no string
falls back to a default kind. -/
theorem sensor_type_string_round_trip :
    (∀ t : SensorType, de_string_to_sensor_type (ser_sensor_type t) = Except.ok t) ∧
    (∀ s : String, s ≠ "Humidity" → s ≠ "Pressure" → s ≠ "Temperature" → s ≠ "Digital" →
      de_string_to_sensor_type s = Except.error "Unexpected sensor type") ∧
    (∀ (s : String) (t : SensorType),
      de_string_to_sensor_type s = Except.ok t → s = ser_sensor_type t) := by
  refine ⟨fun t => by cases t <;> decide, ?_, ?_⟩
  · intro s h1 h2 h3 h4
    simp [de_string_to_sensor_type, h1, h2, h3, h4]
  · intro s t h
    unfold de_string_to_sensor_type at h
    split_ifs at h with h1 h2 h3 h4
    · simp only [Except.ok.injEq] at h
      subst h
      exact h1
    · simp only [Except.ok.injEq] at h
      subst h
      exact h2
    · simp only [Except.ok.injEq] at h
      subst h
      exact h3
    · simp only [Except.ok.injEq] at h
      subst h
      exact h4

/-- Witness for C6 at concrete inputs: `"Foo"` differs from all four kind
names and decodes to the unknown-sensor-type error, and the successful
decode of `"Humidity"` is indeed at the encoded name of its result. -/
theorem sensor_type_string_round_trip_witness :
    ("Foo" ≠ "Humidity" ∧ "Foo" ≠ "Pressure" ∧ "Foo" ≠ "Temperature" ∧ "Foo" ≠ "Digital") ∧
    de_string_to_sensor_type "Foo" = Except.error "Unexpected sensor type" ∧
    (de_string_to_sensor_type "Humidity" = Except.ok SensorType.Humidity ∧
      "Humidity" = ser_sensor_type SensorType.Humidity) :=
  ⟨⟨by decide, by decide, by decide, by decide⟩,
    sensor_type_string_round_trip.2.1 "Foo" (by decide) (by decide) (by decide) (by decide),
    ⟨by decide, sensor_type_string_round_trip.2.2 "Humidity" SensorType.Humidity (by decide)⟩⟩

/-! ### Lemmas about `swap_remove` and `findIdx?` -/

theorem swap_remove_length {A : Type} (l : List A) (i : Nat) (h : 0 < l.length) :
    (swap_remove l i).length = l.length - 1 := by
  unfold swap_remove
  cases hgl : l.getLast? with
  | none =>
    rw [List.getLast?_eq_none_iff] at hgl
    subst hgl
    simp at h
  | some g => simp [List.length_dropLast, List.length_set]

theorem swap_remove_perm {A : Type} :
    ∀ (l : List A) (i : Nat), i < l.length → (swap_remove l i).Perm (l.eraseIdx i)
  | [], _, h => absurd h (by simp)
  | [x], 0, _ => by
    show (([x].set 0 x).dropLast).Perm (([x] : List A).eraseIdx 0)
    exact List.Perm.refl _
  | [_], (i+1), h => absurd h (by simp)
  | x :: y :: ys, 0, _ => by
    unfold swap_remove
    rw [List.getLast?_cons_cons]
    cases hgl : (y :: ys).getLast? with
    | none =>
      rw [List.getLast?_eq_none_iff] at hgl
      exact absurd hgl (by simp)
    | some g =>
      show (g :: (y :: ys).dropLast).Perm (y :: ys)
      have hne : (y :: ys : List A) ≠ [] := by simp
      have hg2 : (y :: ys).getLast hne = g := by
        have hx := List.getLast?_eq_getLast (y :: ys) hne
        rw [hx] at hgl
        exact Option.some.inj hgl
      have key : (y :: ys).dropLast ++ [g] = y :: ys := by
        rw [← hg2]
        exact List.dropLast_append_getLast hne
      have p := (List.perm_append_singleton g ((y :: ys).dropLast)).symm
      rwa [key] at p
  | x :: y :: ys, (i+1), h => by
    have h' : i < (y :: ys).length := by
      simp only [List.length_cons] at h ⊢
      omega
    have ih := swap_remove_perm (y :: ys) i h'
    unfold swap_remove at ih ⊢
    rw [List.getLast?_cons_cons]
    cases hgl : (y :: ys).getLast? with
    | none =>
      rw [List.getLast?_eq_none_iff] at hgl
      exact absurd hgl (by simp)
    | some g =>
      rw [hgl] at ih
      have ih' : (((y :: ys).set i g).dropLast).Perm ((y :: ys).eraseIdx i) := ih
      show ((x :: (y :: ys).set i g).dropLast).Perm (x :: (y :: ys).eraseIdx i)
      have hne2 : (y :: ys).set i g ≠ [] := by
        intro hc
        have hlc := congrArg List.length hc
        simp at hlc
      rw [List.dropLast_cons_of_ne_nil hne2]
      exact ih'.cons x

theorem swap_remove_nodup {A : Type} (l : List A) (i : Nat) (h : i < l.length)
    (hnd : l.Nodup) : (swap_remove l i).Nodup :=
  (swap_remove_perm l i h).nodup_iff.mpr (hnd.sublist (List.eraseIdx_sublist l i))

theorem findIdx?_some_bound {A : Type} (p : A → Bool) :
    ∀ (l : List A) (i j : Nat), List.findIdx? p l i = some j → i ≤ j ∧ j < i + l.length
  | [], i, j, h => by simp [List.findIdx?] at h
  | x :: xs, i, j, h => by
    rw [List.findIdx?_cons] at h
    by_cases hp : p x = true
    · rw [if_pos hp] at h
      have hij : i = j := Option.some.inj h
      subst hij
      simp
    · rw [if_neg hp] at h
      have ih := findIdx?_some_bound p xs (i+1) j h
      simp only [List.length_cons]
      omega

theorem findIdx?_beq_append_self {A : Type} [DecidableEq A] (P : A) :
    ∀ (l : List A) (i : Nat), P ∉ l →
      List.findIdx? (fun a => a == P) (l ++ [P]) i = some (i + l.length)
  | [], i, _ => by simp [List.findIdx?_cons]
  | x :: xs, i, h => by
    have hx : (x == P) = false := by
      rw [beq_eq_false_iff_ne]
      intro he
      exact h (by rw [he]; exact List.mem_cons_self P xs)
    rw [List.cons_append, List.findIdx?_cons, hx]
    rw [if_neg (by simp)]
    rw [findIdx?_beq_append_self P xs (i+1) (fun hm => h (List.mem_cons_of_mem x hm))]
    congr 1
    simp only [List.length_cons]
    omega

theorem set_append_last {A : Type} (l : List A) (a x : A) :
    (l ++ [a]).set l.length x = l ++ [x] := by
  simp [List.set_append]

/-! ### C9: authority calls never touch the sensor store -/

/-- C9. `add_authority` and `remove_authority` mutate only the registry
and the event list: for every origin and argument, on success as on
failure, the sensor store of the resulting state is the input store. -/
theorem authority_calls_preserve_sensors {A : Type} [DecidableEq A]
    (maxAuthorities : Nat) (origin : Origin A) (a : A) (s : PalletState A) :
    (add_authority maxAuthorities origin a s).1.sensors = s.sensors ∧
    (remove_authority origin a s).1.sensors = s.sensors := by
  constructor
  · cases origin with
    | Signed who => rfl
    | NoOrigin => rfl
    | Root =>
      by_cases hia : is_authority s a = true
      · simp [add_authority, ensure_root, hia]
      · by_cases hlen : s.authorities.length < maxAuthorities
        · simp [add_authority, ensure_root, hia, try_push, hlen, deposit_event]
        · simp [add_authority, ensure_root, hia, try_push, hlen]
  · cases origin with
    | Signed who => rfl
    | NoOrigin => rfl
    | Root =>
      by_cases hia : is_authority s a = true
      · cases hidx : s.authorities.findIdx? (fun x => x == a) with
        | none => simp [remove_authority, ensure_root, hia, hidx]
        | some index => simp [remove_authority, ensure_root, hia, hidx, deposit_event]
      · simp [remove_authority, ensure_root, hia]

/-! ### C3: the registry stays duplicate-free and bounded -/

/-- C3. If the registry has no duplicates and is within its capacity,
this is preserved by `add_authority` and `remove_authority` (the only
calls that mutate it; at genesis it is empty, so every reachable state
satisfies it), and a further `add_authority` on a full registry fails
with `Error::TooManyAuthorities` — the error the spec calls
`CapacityExceeded` — leaving the whole state unchanged. -/
theorem authorities_nodup_and_bounded {A : Type} [DecidableEq A]
    (maxAuthorities : Nat) (origin : Origin A) (a : A) (s : PalletState A)
    (hnd : s.authorities.Nodup) (hlen : s.authorities.length ≤ maxAuthorities) :
    ((add_authority maxAuthorities origin a s).1.authorities.Nodup ∧
      (add_authority maxAuthorities origin a s).1.authorities.length ≤ maxAuthorities) ∧
    ((remove_authority origin a s).1.authorities.Nodup ∧
      (remove_authority origin a s).1.authorities.length ≤ maxAuthorities) ∧
    (s.authorities.length = maxAuthorities → is_authority s a = false →
      add_authority maxAuthorities Origin.Root a s
        = (s, some (DispatchError.Module PalletError.TooManyAuthorities))) := by
  refine ⟨?_, ?_, ?_⟩
  · cases origin with
    | Signed who => exact ⟨hnd, hlen⟩
    | NoOrigin => exact ⟨hnd, hlen⟩
    | Root =>
      by_cases hia : is_authority s a = true
      · have heq : add_authority maxAuthorities Origin.Root a s
            = (s, some (DispatchError.Module PalletError.AlreadyAuthority)) := by
          simp [add_authority, ensure_root, hia]
        rw [heq]
        exact ⟨hnd, hlen⟩
      · by_cases hl : s.authorities.length < maxAuthorities
        · have hmem : a ∉ s.authorities := by
            rw [← is_authority_eq_false_iff s a]
            exact Bool.eq_false_iff.mpr hia
          have heq : add_authority maxAuthorities Origin.Root a s
              = (deposit_event (Event.AuthorityAdded a)
                  { s with authorities := s.authorities ++ [a] }, none) := by
            simp [add_authority, ensure_root, hia, try_push, hl, deposit_event]
          rw [heq]
          constructor
          · simp [deposit_event, List.nodup_append, hnd, hmem]
          · simp only [deposit_event, List.length_append, List.length_cons, List.length_nil]
            omega
        · have heq : add_authority maxAuthorities Origin.Root a s
              = (s, some (DispatchError.Module PalletError.TooManyAuthorities)) := by
            simp [add_authority, ensure_root, hia, try_push, hl]
          rw [heq]
          exact ⟨hnd, hlen⟩
  · cases origin with
    | Signed who => exact ⟨hnd, hlen⟩
    | NoOrigin => exact ⟨hnd, hlen⟩
    | Root =>
      by_cases hia : is_authority s a = true
      · cases hidx : s.authorities.findIdx? (fun x => x == a) with
        | none =>
          have heq : remove_authority Origin.Root a s
              = (s, some (DispatchError.Module PalletError.NotAuthority)) := by
            simp [remove_authority, ensure_root, hia, hidx]
          rw [heq]
          exact ⟨hnd, hlen⟩
        | some index =>
          have hb := findIdx?_some_bound (fun x => x == a) s.authorities 0 index hidx
          have hilt : index < s.authorities.length := by omega
          simp only [remove_authority, ensure_root, hia, hidx, deposit_event, ite_true]
          constructor
          · exact swap_remove_nodup s.authorities index hilt hnd
          · rw [swap_remove_length s.authorities index (by omega)]
            omega
      · have heq : remove_authority Origin.Root a s
            = (s, some (DispatchError.Module PalletError.NotAuthority)) := by
          simp [remove_authority, ensure_root, hia]
        rw [heq]
        exact ⟨hnd, hlen⟩
  · intro hfull hia
    simp [add_authority, ensure_root, hia, try_push, hfull]

/-- Witness for C3: with `MaxAuthorities = 1` and registry `[1]`, the
invariants hold, and adding the fresh authority `2` fails with
`TooManyAuthorities`, leaving the state unchanged. -/
theorem authorities_nodup_and_bounded_witness :
    regOneState.authorities.Nodup ∧ regOneState.authorities.length ≤ 1 ∧
    regOneState.authorities.length = 1 ∧ is_authority regOneState 2 = false ∧
    add_authority 1 Origin.Root 2 regOneState
      = (regOneState, some (DispatchError.Module PalletError.TooManyAuthorities)) :=
  ⟨by decide, by decide, by decide, by decide,
    (authorities_nodup_and_bounded 1 Origin.Root 2 regOneState
      (by decide) (by decide)).2.2 (by decide) (by decide)⟩

/-! ### C4: add then remove round-trips membership -/

/-- C4. For a principal `P` not in the registry, a successful
`add_authority(root, P)` makes `is_authority P` return true, and the
subsequent `remove_authority(root, P)` succeeds and makes
`is_authority P` return false again. -/
theorem add_then_remove_authority {A : Type} [DecidableEq A]
    (maxAuthorities : Nat) (P : A) (s : PalletState A)
    (h : is_authority s P = false)
    (hsucc : (add_authority maxAuthorities Origin.Root P s).2 = none) :
    is_authority (add_authority maxAuthorities Origin.Root P s).1 P = true ∧
    (remove_authority Origin.Root P (add_authority maxAuthorities Origin.Root P s).1).2 = none ∧
    is_authority (remove_authority Origin.Root P
      (add_authority maxAuthorities Origin.Root P s).1).1 P = false := by
  have hP : P ∉ s.authorities := (is_authority_eq_false_iff s P).mp h
  have hia : ¬ (is_authority s P = true) := by rw [h]; simp
  by_cases hl : s.authorities.length < maxAuthorities
  · have heq : add_authority maxAuthorities Origin.Root P s
        = ({ authorities := s.authorities ++ [P], sensors := s.sensors,
             events := s.events ++ [Event.AuthorityAdded P] }, none) := by
      simp [add_authority, ensure_root, hia, try_push, hl, deposit_event]
    rw [heq]
    have hmem1 : is_authority
        ({ authorities := s.authorities ++ [P], sensors := s.sensors,
           events := s.events ++ [Event.AuthorityAdded P] } : PalletState A) P = true := by
      rw [is_authority_iff_mem]
      simp
    have hfind : List.findIdx? (fun x => x == P) (s.authorities ++ [P])
        = some s.authorities.length := by
      simpa using findIdx?_beq_append_self P s.authorities 0 hP
    have hswap : swap_remove (s.authorities ++ [P]) s.authorities.length
        = s.authorities := by
      unfold swap_remove
      rw [List.getLast?_concat]
      show ((s.authorities ++ [P]).set s.authorities.length P).dropLast = s.authorities
      rw [set_append_last]
      exact List.dropLast_concat
    refine ⟨hmem1, ?_, ?_⟩
    · simp [remove_authority, ensure_root, hmem1, hfind]
    · rw [is_authority_eq_false_iff]
      simp [remove_authority, ensure_root, hmem1, hfind, hswap, deposit_event, hP]
  · exfalso
    have hbad : (add_authority maxAuthorities Origin.Root P s).2
        = some (DispatchError.Module PalletError.TooManyAuthorities) := by
      simp [add_authority, ensure_root, hia, try_push, hl]
    rw [hbad] at hsucc
    exact Option.noConfusion hsucc

/-- Witness for C4 at a concrete input: account `7` is fresh for the
empty registry, the add succeeds, membership flips to true, and the
removal flips it back to false. -/
theorem add_then_remove_authority_witness :
    is_authority emptyState 7 = false ∧
    (add_authority 2 Origin.Root 7 emptyState).2 = none ∧
    is_authority (add_authority 2 Origin.Root 7 emptyState).1 7 = true ∧
    (remove_authority Origin.Root 7 (add_authority 2 Origin.Root 7 emptyState).1).2 = none ∧
    is_authority (remove_authority Origin.Root 7
      (add_authority 2 Origin.Root 7 emptyState).1).1 7 = false :=
  ⟨by decide, by decide,
    (add_then_remove_authority 2 7 emptyState (by decide) (by decide)).1,
    (add_then_remove_authority 2 7 emptyState (by decide) (by decide)).2.1,
    (add_then_remove_authority 2 7 emptyState (by decide) (by decide)).2.2⟩

/-! ### C5: applying the same batch twice is idempotent -/

/-- C5. For an authorized signer, submitting the same batch twice through
`update_sensors_data` leaves the sensor store in exactly the same state
as submitting it once: each upsert overwrites the (id, kind) entry, so
the second pass rewrites every key with the same final record. -/
theorem update_sensors_data_idempotent {A : Type} [DecidableEq A] (who : A)
    (b : List SensorData) (s : PalletState A)
    (h : is_authority s who = true) :
    (update_sensors_data (Origin.Signed who) b
        ((update_sensors_data (Origin.Signed who) b s).1)).1.sensors
      = (update_sensors_data (Origin.Signed who) b s).1.sensors := by
  have h1 : is_authority (applyBatch b s) who = true := by
    unfold is_authority
    rw [applyBatch_authorities]
    exact h
  rw [update_sensors_data_authorized who b s h]
  show (update_sensors_data (Origin.Signed who) b (applyBatch b s)).1.sensors
      = (applyBatch b s).sensors
  rw [update_sensors_data_authorized who b (applyBatch b s) h1]
  show (applyBatch b (applyBatch b s)).sensors = (applyBatch b s).sensors
  funext i t
  rw [applyBatch_sensors b (applyBatch b s) i t]
  cases hlf : lastFor b i t with
  | some r =>
    rw [applyBatch_sensors b s i t, hlf]
  | none =>
    show (applyBatch b s).sensors i t = _
    rfl

/-- Witness for C5: authority `1` submits `[sampleRecord]` twice over
`regOneState`; the sensor store is the same as after one submission. -/
theorem update_sensors_data_idempotent_witness :
    is_authority regOneState 1 = true ∧
    (update_sensors_data (Origin.Signed 1) [sampleRecord]
        ((update_sensors_data (Origin.Signed 1) [sampleRecord] regOneState).1)).1.sensors
      = (update_sensors_data (Origin.Signed 1) [sampleRecord] regOneState).1.sensors :=
  ⟨by decide, update_sensors_data_idempotent 1 [sampleRecord] regOneState (by decide)⟩

/-! ### C7: removal succeeds but deposits the wrong event -/

/-- C7 (divergence witness). Removing authority `1` from the registry
`[1]` succeeds and removes the entry, but the deposited event is
`AuthorityAdded 1` and no `AuthorityRemoved` event is emitted:
lib.rs line 422 (and calls.rs) deposits `Event::AuthorityAdded` on the
removal path, although the `AuthorityRemoved` variant is documented as
"generated when an authority is removed". -/
theorem remove_authority_emits_wrong_event :
    (remove_authority Origin.Root 1 regOneState).2 = none ∧
    (remove_authority Origin.Root 1 regOneState).1.authorities = [] ∧
    (remove_authority Origin.Root 1 regOneState).1.events = [Event.AuthorityAdded 1] ∧
    Event.AuthorityAdded 1 ≠ (Event.AuthorityRemoved 1 : Event Nat) ∧
    Event.AuthorityRemoved 1 ∉ (remove_authority Origin.Root 1 regOneState).1.events :=
  ⟨by decide, by decide, by decide, by decide, by decide⟩

/-! ### C8: upsert always succeeds and overwrites, but emits nothing -/

/-- C8 (divergence witness). `add_sensor_data` is total — every upsert
succeeds — and unconditionally overwrites the (id, type) entry, but it
deposits no event whatsoever: in particular no `SensorDataAdded`
notification, the variant declared in events.rs being emitted nowhere in
the pallet.  The general conjunct shows this for every record and state,
the concrete ones overwrite `sampleRecord` with `sampleRecord2`. -/
theorem add_sensor_data_overwrites_without_event :
    (∀ (r : SensorData) (st : PalletState Nat),
      (add_sensor_data r st).events = st.events ∧
      (add_sensor_data r st).sensors r.id r.type_ = some r) ∧
    (add_sensor_data sampleRecord emptyState).sensors 1 SensorType.Temperature
      = some sampleRecord ∧
    (add_sensor_data sampleRecord2 (add_sensor_data sampleRecord emptyState)).sensors
      1 SensorType.Temperature = some sampleRecord2 ∧
    (add_sensor_data sampleRecord2 (add_sensor_data sampleRecord emptyState)).events = [] ∧
    Event.SensorDataAdded 1 SensorType.Temperature
      ∉ (add_sensor_data sampleRecord2 (add_sensor_data sampleRecord emptyState)).events :=
  ⟨fun r st => ⟨rfl, by simp [add_sensor_data]⟩,
    by decide, by decide, by decide, by decide⟩

/-! ### C10: within a batch, the last record for a key wins -/

/-- C10. When an authority submits a batch containing several records for
the same (id, kind) pair, the records are applied in batch order, so the
store afterwards holds, for that pair, exactly the record occurring last
in the batch. -/
theorem update_sensors_data_last_write_wins {A : Type} [DecidableEq A] (who : A)
    (b : List SensorData) (s : PalletState A) (i : SensorIdOf) (t : SensorType)
    (r : SensorData) (hauth : is_authority s who = true)
    (hlast : lastFor b i t = some r) :
    (update_sensors_data (Origin.Signed who) b s).1.sensors i t = some r := by
  rw [update_sensors_data_authorized who b s hauth]
  show (applyBatch b s).sensors i t = some r
  rw [applyBatch_sensors b s i t, hlast]

/-- Witness for C10: the batch `[sampleRecord, sampleRecord2]` writes the
key (1, Temperature) twice; after the call the store holds
`sampleRecord2`, the later record. -/
theorem update_sensors_data_last_write_wins_witness :
    is_authority regOneState 1 = true ∧
    lastFor [sampleRecord, sampleRecord2] 1 SensorType.Temperature = some sampleRecord2 ∧
    (update_sensors_data (Origin.Signed 1) [sampleRecord, sampleRecord2] regOneState).1.sensors
      1 SensorType.Temperature = some sampleRecord2 :=
  ⟨by decide, by decide,
    update_sensors_data_last_write_wins 1 [sampleRecord, sampleRecord2] regOneState
      1 SensorType.Temperature sampleRecord2 (by decide) (by decide)⟩

end SensorsOracle
